import Mathlib

/-!
Shallow embedding of the auction/bidding subsystem of the zimmarkets
backend (src/src/auctions/auctions.service.ts together with the auction
rows created in src/src/listings/listings.service.ts), and proofs of the
specification claims about it.

Modelling conventions:
 - JS numbers holding money are modelled as exact rationals.
 - Timestamps (ISO strings / Date values) are modelled as integer
   milliseconds.
 - Opaque string ids (auction/bidder/listing ids) are modelled as naturals.
 - The remote store is modelled as explicit state: one auction row (joined
   with its listing's seller id), the list of rows of the bids table, and
   the listing's sold flag.
-/

namespace ZimMarkets

/-- Auction status values (auction entity / update-auction DTO). -/
inductive Status
  | draft
  | active
  | ended
  | cancelled
  | completed
deriving DecidableEq

/-- A row of the auctions module's bids table, as inserted by
placeBid (auctions.service.ts lines 224-236): id, bidder_id, bid_amount,
bid_currency, bid_time, is_winning. -/
structure BidRow where
  id : ℕ
  bidderId : ℕ
  amount : ℚ
  currency : String
  bidTime : ℤ
  isWinning : Bool
deriving DecidableEq

/-- An auctions-table row joined with its listing's seller_id, exactly the
columns placeBid selects (auctions.service.ts lines 173-185) plus the
columns written elsewhere (winning_bidder_id, reserve_price from the
create-auction DTO, updated_at). -/
structure AuctionRow where
  status : Status
  auctionEnd : ℤ
  currentBid : ℚ
  startingPrice : ℚ
  bidCount : ℕ
  sellerId : ℕ
  reservePrice : Option ℚ
  winningBidderId : Option ℕ
  updatedAt : ℤ
deriving DecidableEq

/-- The mutable state one auction's operations touch: its auctions row,
the bids table restricted to this auction, and whether the listing has
been marked sold (endAuction writes listings.status = sold). -/
structure Store where
  auction : AuctionRow
  bids : List BidRow
  listingSold : Bool
deriving DecidableEq

/-- The typed failures of bid placement, one constructor per distinct
error the code raises on the placeBid path.  bidNotAboveCurrent carries
the current bid the message interpolates; bidBelowIncrement carries the
minimum increment the message interpolates (auctions.service.ts lines
212-218). -/
inductive BidError
  | auctionNotActive
  | auctionEnded
  | selfBidNotAllowed
  | bidNotAboveCurrent (currentBid : ℚ)
  | bidBelowIncrement (minIncrement : ℚ)
  | updateFailed
  | insertNullBid
deriving DecidableEq

/-- Either of the two too-low rejections of the amount check. -/
def BidError.isBidTooLow : BidError → Bool
  | .bidNotAboveCurrent _ => true
  | .bidBelowIncrement _ => true
  | _ => false

/-- The current bid the validation uses: auction.current_bid with a JS
falsy fallback to auction.starting_price (line 209; 0 is falsy). -/
def effectiveCurrentBid (a : AuctionRow) : ℚ :=
  if a.currentBid = 0 then a.startingPrice else a.currentBid

/-- Math.max(currentBid * 0.05, 1): 5% minimum increment or $1
(line 210; 0.05 = 5/100). -/
def minIncrement (currentBid : ℚ) : ℚ :=
  max (currentBid * (5 / 100)) 1

/-- The in-order short-circuiting validation placeBid performs against the
fetched auction snapshot (auctions.service.ts lines 193-218): status must
be active, then the end-time check (rejecting only when auction_end is
strictly in the past), then the self-bid check, then the two amount
checks.  Returns the first failure, or none when the bid is admitted. -/
def validateBid (a : AuctionRow) (bidderId : ℕ) (amount : ℚ) (now : ℤ) :
    Option BidError :=
  if a.status ≠ Status.active then some .auctionNotActive
  else if a.auctionEnd < now then some .auctionEnded
  else if a.sellerId = bidderId then some .selfBidNotAllowed
  else if amount ≤ effectiveCurrentBid a then
    some (.bidNotAboveCurrent (effectiveCurrentBid a))
  else if amount < effectiveCurrentBid a + minIncrement (effectiveCurrentBid a) then
    some (.bidBelowIncrement (minIncrement (effectiveCurrentBid a)))
  else none

/-- Which of the two store writes of placeBid fail, modelling the
bidError branch (line 238, warn-and-continue) and the updateError branch
(line 254). -/
structure StoreFaults where
  insertFails : Bool
  updateFails : Bool
deriving DecidableEq

/-- A sequential run of placeBid (auctions.service.ts lines 169-272):
validate against the snapshot; insert the bid row (on failure the code
only logs and continues); unconditionally update current_bid to the bid
amount and bid_count to the snapshot's count plus one; finally build the
return value from the inserted row, which on a failed insert dereferences
null and surfaces as the catch-all error. -/
def placeBid (s : Store) (bidId bidderId : ℕ) (amount : ℚ)
    (currency : String) (now : ℤ) (f : StoreFaults) :
    Store × Except BidError BidRow :=
  match validateBid s.auction bidderId amount now with
  | some e => (s, .error e)
  | none =>
    let row : BidRow :=
      { id := bidId, bidderId := bidderId, amount := amount,
        currency := currency, bidTime := now, isWinning := false }
    let s1 : Store :=
      if f.insertFails then s else { s with bids := s.bids ++ [row] }
    if f.updateFails then (s1, .error .updateFailed)
    else
      let s2 : Store :=
        { s1 with auction :=
          { s1.auction with
            currentBid := amount,
            bidCount := s.auction.bidCount + 1,
            updatedAt := now } }
      if f.insertFails then (s2, .error .insertNullBid)
      else (s2, .ok row)

/-- placeBid when both store writes succeed. -/
def placeBidOk (s : Store) (bidId bidderId : ℕ) (amount : ℚ) (now : ℤ) :
    Store × Except BidError BidRow :=
  placeBid s bidId bidderId amount "USD" now ⟨false, false⟩

/-- The bids query of endAuction: order by bid_amount descending, limit 1
(auctions.service.ts lines 318-324).  The fold keeps the earlier row on
an exact tie of amounts, a deterministic rendering of the query's
unspecified tie order. -/
def highestBid : List BidRow → Option BidRow
  | [] => none
  | b :: rest =>
    match highestBid rest with
    | none => some b
    | some m => if b.amount < m.amount then some m else some b

/-- The update setting is_winning = true on the row with the given id
(auctions.service.ts lines 339-342). -/
def markWinning (bids : List BidRow) (bidId : ℕ) : List BidRow :=
  bids.map fun b => if b.id = bidId then { b with isWinning := true } else b

/-- endAuction (auctions.service.ts lines 311-374): fetch the highest
bid; if one exists, mark it winning, mark the listing sold, and update
the auction with status ended and winning_bidder_id; otherwise update
only status and updated_at.  There is no status guard and no reserve
price check. -/
def endAuction (s : Store) (now : ℤ) : Store :=
  match highestBid s.bids with
  | some hb =>
    { auction :=
        { s.auction with
          status := Status.ended,
          winningBidderId := some hb.bidderId,
          updatedAt := now },
      bids := markWinning s.bids hb.id,
      listingSold := true }
  | none =>
    { s with auction :=
        { s.auction with status := Status.ended, updatedAt := now } }

/-- checkAndEndExpiredAuctions (auctions.service.ts lines 596-618): for
each auction with status active and auction_end strictly before now, run
endAuction; leave the rest untouched.  The closures are independent, so
the sweep over a table of auctions is a pointwise map. -/
def checkAndEndExpiredAuctions (table : List (ℕ × Store)) (now : ℤ) :
    List (ℕ × Store) :=
  table.map fun p =>
    if p.2.auction.status = Status.active ∧ p.2.auction.auctionEnd < now then
      (p.1, endAuction p.2 now)
    else p

/-- cancelAuction (auctions.service.ts lines 506-536): refused while any
bid exists; otherwise the status is set to cancelled (the update is
filtered to active auctions). -/
def cancelAuction (s : Store) (now : ℤ) : Except Unit Store :=
  if s.bids ≠ [] then .error ()
  else if s.auction.status = Status.active then
    .ok { s with auction :=
      { s.auction with status := Status.cancelled, updatedAt := now } }
  else .error ()

/-- The failures of extendAuction (auctions.service.ts lines 471-483). -/
inductive ExtendError
  | auctionNotFound
  | auctionNotActive
  | exceedsMaxExtension
deriving DecidableEq

/-- extendAuction (auctions.service.ts lines 461-504): only active
auctions may be extended; the extension is capped at 24 * 60 minutes per
call; the new end time is the current end plus additionalMinutes minutes
(60000 ms each), and only auction_end and updated_at are written. -/
def extendAuction (s : Store) (additionalMinutes : ℤ) (now : ℤ) :
    Except ExtendError Store :=
  if s.auction.status ≠ Status.active then .error .auctionNotActive
  else if 24 * 60 < additionalMinutes then .error .exceedsMaxExtension
  else .ok
    { s with auction :=
        { s.auction with
          auctionEnd := s.auction.auctionEnd + additionalMinutes * 60000,
          updatedAt := now } }

/-!
Interleaving model of concurrent placeBid invocations.  One invocation is
decomposed into the store round-trips the code performs: the read of the
auction row (after which validation runs in-process against that
snapshot), the insert of the bid row, and the unguarded update of the
auction row.  Nothing in the code makes the update conditional on the
stored current_bid still matching the snapshot.
-/

/-- Progress of one in-flight placeBid invocation. -/
inductive ThreadPhase
  | toRead
  | toInsert
  | toUpdate
  | doneOk
  | doneErr
deriving DecidableEq

/-- One in-flight placeBid invocation: its arguments, its progress, and
the auction snapshot captured by its read. -/
structure Thread where
  phase : ThreadPhase
  bidId : ℕ
  bidderId : ℕ
  amount : ℚ
  now : ℤ
  snap : Option AuctionRow
deriving DecidableEq

/-- Execute the next store round-trip of one invocation against the
shared store, mirroring the placeBid body with no faults: read+validate,
then insert, then the unconditional update computed from the snapshot's
bid_count. -/
def stepThread (s : Store) (t : Thread) : Store × Thread :=
  match t.phase with
  | .toRead =>
    match validateBid s.auction t.bidderId t.amount t.now with
    | some _ => (s, { t with phase := .doneErr })
    | none => (s, { t with phase := .toInsert, snap := some s.auction })
  | .toInsert =>
    ({ s with bids := s.bids ++
        [{ id := t.bidId, bidderId := t.bidderId, amount := t.amount,
           currency := "USD", bidTime := t.now, isWinning := false }] },
     { t with phase := .toUpdate })
  | .toUpdate =>
    match t.snap with
    | none => (s, { t with phase := .doneErr })
    | some snap =>
      ({ s with auction :=
          { s.auction with
            currentBid := t.amount,
            bidCount := snap.bidCount + 1,
            updatedAt := t.now } },
       { t with phase := .doneOk })
  | .doneOk => (s, t)
  | .doneErr => (s, t)

/-- A shared store with two concurrent placeBid invocations. -/
structure Config2 where
  store : Store
  tA : Thread
  tB : Thread
deriving DecidableEq

/-- Run the next round-trip of invocation A (true) or B (false). -/
def stepConfig (c : Config2) (who : Bool) : Config2 :=
  if who then
    let r := stepThread c.store c.tA
    { c with store := r.1, tA := r.2 }
  else
    let r := stepThread c.store c.tB
    { c with store := r.1, tB := r.2 }

/-- Run an interleaving schedule over the two invocations. -/
def runSched (c : Config2) (sched : List Bool) : Config2 :=
  sched.foldl stepConfig c

/-- The auction row inserted for an auction listing
(listings.service.ts lines 110-122): current_bid starts at the listing
price (the starting price), bid_count 0, status active, no winner. -/
def createStore (startingPrice : ℚ) (auctionEnd : ℤ) (sellerId : ℕ)
    (reservePrice : Option ℚ) (now : ℤ) : Store :=
  { auction :=
      { status := Status.active,
        auctionEnd := auctionEnd,
        currentBid := startingPrice,
        startingPrice := startingPrice,
        bidCount := 0,
        sellerId := sellerId,
        reservePrice := reservePrice,
        winningBidderId := none,
        updatedAt := now },
    bids := [],
    listingSold := false }

/-- The store states reachable through the service's auction operations,
run sequentially and with the store writes succeeding: creation of an
auction listing, bid placement attempts, ending, extension and
cancellation.  Creation is restricted here to a nonnegative starting
price; the code itself does not validate this (the create-listing DTO
checks only IsNumber on price_amount), and without the restriction the
price invariant fails — see the counterexample accompanying C4. -/
inductive Reachable : Store → Prop
  | create (sp : ℚ) (hsp : 0 ≤ sp) (auctionEnd : ℤ) (sellerId : ℕ)
      (rp : Option ℚ) (now : ℤ) :
      Reachable (createStore sp auctionEnd sellerId rp now)
  | bid {s : Store} (bidId bidderId : ℕ) (amount : ℚ) (now : ℤ) :
      Reachable s → Reachable (placeBidOk s bidId bidderId amount now).1
  | close {s : Store} (now : ℤ) :
      Reachable s → Reachable (endAuction s now)
  | extend {s : Store} {s' : Store} (additionalMinutes now : ℤ) :
      Reachable s → extendAuction s additionalMinutes now = .ok s' →
      Reachable s'
  | cancel {s : Store} {s' : Store} (now : ℤ) :
      Reachable s → cancelAuction s now = .ok s' → Reachable s'

/-- The inductive invariant of reachable stores: a nonnegative starting
price, a bid count equal to the number of bid rows, a current bid that is
the amount of some bid and an upper bound of all of them (or the starting
price when there are none), and positive, starting-price-dominating bid
amounts. -/
def Inv (s : Store) : Prop :=
  0 ≤ s.auction.startingPrice ∧
  s.auction.bidCount = s.bids.length ∧
  s.auction.startingPrice ≤ s.auction.currentBid ∧
  (s.bids = [] → s.auction.currentBid = s.auction.startingPrice) ∧
  (∀ b ∈ s.bids, b.amount ≤ s.auction.currentBid ∧ 0 < b.amount) ∧
  (s.bids ≠ [] → ∃ b ∈ s.bids, b.amount = s.auction.currentBid)

/-- A concrete auction as created for a $100 auction listing ending at
time 1000, listed by seller 0. -/
def demoStore : Store := createStore 100 1000 0 none 0

/-!
Helper lemmas about the validator and the close logic.
-/

lemma one_le_minIncrement (c : ℚ) : 1 ≤ minIncrement c := le_max_right _ _

lemma minIncrement_pos (c : ℚ) : 0 < minIncrement c :=
  lt_of_lt_of_le one_pos (one_le_minIncrement c)

/-- Inversion of an admitted bid: all four checks passed, so the auction
was active and unexpired, the bidder was not the seller, and the amount
cleared the minimum-increment threshold (which in particular puts it
strictly above the current bid). -/
lemma validateBid_none_inv {a : AuctionRow} {bidderId : ℕ} {amount : ℚ} {now : ℤ}
    (h : validateBid a bidderId amount now = none) :
    a.status = Status.active ∧ ¬ a.auctionEnd < now ∧ a.sellerId ≠ bidderId ∧
    effectiveCurrentBid a < amount ∧
    effectiveCurrentBid a + minIncrement (effectiveCurrentBid a) ≤ amount := by
  unfold validateBid at h
  split_ifs at h with h1 h2 h3 h4 h5
  exact ⟨not_not.mp h1, h2, h3, not_le.mp h4, not_lt.mp h5⟩

/-- Under the invariant, the JS falsy fallback in the validation is the
identity: the effective current bid is exactly the stored current bid. -/
lemma effectiveCurrentBid_of_inv {s : Store} (h : Inv s) :
    effectiveCurrentBid s.auction = s.auction.currentBid := by
  obtain ⟨hsp, -, hle, -, -, -⟩ := h
  unfold effectiveCurrentBid
  split_ifs with h0
  · have hsp0 : s.auction.startingPrice = 0 := le_antisymm (h0 ▸ hle) hsp
    rw [hsp0, h0]
  · rfl

/-- Claim C9 (amended): bid validation performs its checks in the fixed
order — status, then expiry, then self-bid, then the amount checks —
short-circuiting on the first failure, so the first violated check's
error is the one reported; the expiry check, however, rejects only when
auction_end is strictly before now (a bid arriving exactly at the end
time passes it), rather than requiring now strictly before the end
time. -/
theorem validateBid_check_order (a : AuctionRow) (bidderId : ℕ) (amount : ℚ) (now : ℤ) :
    (a.status ≠ Status.active →
      validateBid a bidderId amount now = some BidError.auctionNotActive) ∧
    (a.status = Status.active → a.auctionEnd < now →
      validateBid a bidderId amount now = some BidError.auctionEnded) ∧
    (a.status = Status.active → ¬ a.auctionEnd < now → a.sellerId = bidderId →
      validateBid a bidderId amount now = some BidError.selfBidNotAllowed) ∧
    (a.status = Status.active → ¬ a.auctionEnd < now → a.sellerId ≠ bidderId →
      amount < effectiveCurrentBid a + minIncrement (effectiveCurrentBid a) →
      ∃ e, validateBid a bidderId amount now = some e ∧ e.isBidTooLow = true) ∧
    (a.status = Status.active → ¬ a.auctionEnd < now → a.sellerId ≠ bidderId →
      effectiveCurrentBid a + minIncrement (effectiveCurrentBid a) ≤ amount →
      validateBid a bidderId amount now = none) := by
  refine ⟨fun h1 => by simp [validateBid, h1],
          fun h1 h2 => by simp [validateBid, h1, h2],
          fun h1 h2 h3 => by simp [validateBid, h1, h2, h3],
          fun h1 h2 h3 h4 => ?_,
          fun h1 h2 h3 h4 => ?_⟩
  · rcases le_or_lt amount (effectiveCurrentBid a) with hc | hc
    · exact ⟨BidError.bidNotAboveCurrent (effectiveCurrentBid a),
        by simp [validateBid, h1, h2, h3, hc], rfl⟩
    · exact ⟨BidError.bidBelowIncrement (minIncrement (effectiveCurrentBid a)),
        by simp [validateBid, h1, h2, h3, not_le.mpr hc, h4], rfl⟩
  · have hgt : effectiveCurrentBid a < amount :=
      lt_of_lt_of_le (lt_add_of_pos_right _ (minIncrement_pos _)) h4
    simp [validateBid, h1, h2, h3, not_le.mpr hgt, not_lt.mpr h4]

/-- Witness for C9: an ended auction reports AuctionNotActive first. -/
theorem validateBid_check_order_witness :
    validateBid { demoStore.auction with status := Status.ended } 3 500 10
      = some BidError.auctionNotActive :=
  (validateBid_check_order { demoStore.auction with status := Status.ended } 3 500 10).1
    (by decide)

/-- Claim C9 counterexample: at the boundary instant now = endTime the
check the claim states (now < endTime, else AuctionExpired) is violated,
so the claim predicts AuctionExpired; the code's check (endTime < now)
passes and the bid by the seller instead fails with SelfBidNotAllowed. -/
theorem validateBid_boundary_counterexample :
    ¬ ((10 : ℤ) < 10) ∧
    validateBid { demoStore.auction with auctionEnd := 10 } 0 500 10
      = some BidError.selfBidNotAllowed ∧
    BidError.selfBidNotAllowed ≠ BidError.auctionEnded := by
  refine ⟨by decide, ?_, by decide⟩
  norm_num [validateBid, demoStore, createStore]

/-- Claim C8 (amended): against an active, unexpired auction, a bid by
the listing's seller is rejected with SelfBidNotAllowed regardless of the
amount offered, and the store is left unchanged; for auctions that are
not active (or past their end time), the status/expiry checks fire first
instead. -/
theorem placeBid_self_rejected (s : Store) (bidId : ℕ) (amount : ℚ)
    (currency : String) (now : ℤ) (f : StoreFaults)
    (h1 : s.auction.status = Status.active) (h2 : ¬ s.auction.auctionEnd < now) :
    validateBid s.auction s.auction.sellerId amount now
      = some BidError.selfBidNotAllowed ∧
    placeBid s bidId s.auction.sellerId amount currency now f
      = (s, Except.error BidError.selfBidNotAllowed) := by
  have hv : validateBid s.auction s.auction.sellerId amount now
      = some BidError.selfBidNotAllowed := by
    simp [validateBid, h1, h2]
  exact ⟨hv, by simp [placeBid, hv]⟩

/-- Witness for C8: the seller of the demo auction cannot bid $1000. -/
theorem placeBid_self_rejected_witness :
    validateBid demoStore.auction demoStore.auction.sellerId 1000 10
      = some BidError.selfBidNotAllowed ∧
    placeBid demoStore 1 demoStore.auction.sellerId 1000 "USD" 10 ⟨false, false⟩
      = (demoStore, Except.error BidError.selfBidNotAllowed) :=
  placeBid_self_rejected demoStore 1 1000 "USD" 10 ⟨false, false⟩ rfl (by decide)

/-- Claim C8 counterexample: for an ended auction the claim as stated
fails — the seller's bid is rejected, but with AuctionNotActive, not
SelfBidNotAllowed, because the status check fires first. -/
theorem placeBid_self_on_ended_counterexample :
    validateBid { demoStore.auction with status := Status.ended }
        demoStore.auction.sellerId 1000 10 = some BidError.auctionNotActive ∧
    BidError.auctionNotActive ≠ BidError.selfBidNotAllowed := by
  exact ⟨by decide, by decide⟩

/-- Claim C3 (amended): against an active, unexpired auction and a
non-seller bidder, a bid is accepted exactly when
amount >= currentBid + minIncrement with minIncrement =
max(currentBid * 0.05, 1); an amount of currentBid + minIncrement - 0.01
is rejected as too low and currentBid + minIncrement is accepted — but
the too-low error reports the minimum increment, not the minimum
acceptable amount. -/
theorem placeBid_min_increment_boundary (a : AuctionRow) (bidderId : ℕ) (now : ℤ)
    (h1 : a.status = Status.active) (h2 : ¬ a.auctionEnd < now)
    (h3 : a.sellerId ≠ bidderId) :
    validateBid a bidderId
        (effectiveCurrentBid a + minIncrement (effectiveCurrentBid a)) now = none ∧
    validateBid a bidderId
        (effectiveCurrentBid a + minIncrement (effectiveCurrentBid a) - 1 / 100) now
      = some (BidError.bidBelowIncrement (minIncrement (effectiveCurrentBid a))) ∧
    ∀ amount : ℚ, validateBid a bidderId amount now = none ↔
      effectiveCurrentBid a + minIncrement (effectiveCurrentBid a) ≤ amount := by
  have hinc : (1 : ℚ) ≤ minIncrement (effectiveCurrentBid a) :=
    one_le_minIncrement _
  refine ⟨?_, ?_, fun amount => ⟨?_, ?_⟩⟩
  · have hgt : effectiveCurrentBid a <
        effectiveCurrentBid a + minIncrement (effectiveCurrentBid a) :=
      lt_add_of_pos_right _ (minIncrement_pos _)
    simp [validateBid, h1, h2, h3, not_le.mpr hgt]
  · have hgt : effectiveCurrentBid a <
        effectiveCurrentBid a + minIncrement (effectiveCurrentBid a) - 1 / 100 := by
      have : (1 : ℚ) / 100 < minIncrement (effectiveCurrentBid a) :=
        lt_of_lt_of_le (by norm_num) hinc
      linarith
    have hlt : effectiveCurrentBid a + minIncrement (effectiveCurrentBid a) - 1 / 100 <
        effectiveCurrentBid a + minIncrement (effectiveCurrentBid a) := by
      norm_num
    simp [validateBid, h1, h2, h3, not_le.mpr hgt, hlt]
    exact lt_of_lt_of_le (by norm_num) hinc
  · intro h
    exact (validateBid_none_inv h).2.2.2.2
  · intro h
    have hgt : effectiveCurrentBid a < amount :=
      lt_of_lt_of_le (lt_add_of_pos_right _ (minIncrement_pos _)) h
    simp [validateBid, h1, h2, h3, not_le.mpr hgt, not_lt.mpr h]

/-- Witness for C3 at the demo auction: currentBid 100, minIncrement 5,
so 104.99 is rejected as too low and 105 is accepted. -/
theorem placeBid_min_increment_boundary_witness :
    validateBid demoStore.auction 1
        (effectiveCurrentBid demoStore.auction
          + minIncrement (effectiveCurrentBid demoStore.auction)) 10 = none ∧
    validateBid demoStore.auction 1
        (effectiveCurrentBid demoStore.auction
          + minIncrement (effectiveCurrentBid demoStore.auction) - 1 / 100) 10
      = some (BidError.bidBelowIncrement
          (minIncrement (effectiveCurrentBid demoStore.auction))) ∧
    ∀ amount : ℚ, validateBid demoStore.auction 1 amount 10 = none ↔
      effectiveCurrentBid demoStore.auction
        + minIncrement (effectiveCurrentBid demoStore.auction) ≤ amount :=
  placeBid_min_increment_boundary demoStore.auction 1 10 rfl (by decide) (by decide)

/-- Claim C3 counterexample: on the demo auction (currentBid 100, so
minIncrement 5 and minimum acceptable amount 105) a bid of 101 is
rejected with an error reporting 5, and 5 is not the minimum acceptable
amount 105 the claim says the error reports. -/
theorem bidTooLow_reports_increment_counterexample :
    validateBid demoStore.auction 1 101 10
      = some (BidError.bidBelowIncrement 5) ∧
    effectiveCurrentBid demoStore.auction
      + minIncrement (effectiveCurrentBid demoStore.auction) = 105 ∧
    (5 : ℚ) ≠ 105 := by
  refine ⟨?_, ?_, by norm_num⟩
  · norm_num [validateBid, effectiveCurrentBid, minIncrement, demoStore, createStore]
  · norm_num [effectiveCurrentBid, minIncrement, demoStore, createStore]

/-- Claim C10: extendAuction fails on a non-active auction, fails when
the requested extension exceeds 24 * 60 minutes, and otherwise moves the
end time to exactly the previous end time plus additionalMinutes minutes
(60000 ms each), leaving currentBid, bidCount and status unchanged. -/
theorem extendAuction_spec (s : Store) (m now : ℤ) :
    (s.auction.status ≠ Status.active →
      extendAuction s m now = Except.error ExtendError.auctionNotActive) ∧
    (s.auction.status = Status.active → 24 * 60 < m →
      extendAuction s m now = Except.error ExtendError.exceedsMaxExtension) ∧
    (s.auction.status = Status.active → m ≤ 24 * 60 →
      extendAuction s m now = Except.ok
        { s with auction := { s.auction with
            auctionEnd := s.auction.auctionEnd + m * 60000,
            updatedAt := now } }) ∧
    (∀ s' : Store, extendAuction s m now = Except.ok s' →
      s'.auction.auctionEnd = s.auction.auctionEnd + m * 60000 ∧
      s'.auction.currentBid = s.auction.currentBid ∧
      s'.auction.bidCount = s.auction.bidCount ∧
      s'.auction.status = s.auction.status ∧
      s'.bids = s.bids) := by
  refine ⟨fun h1 => by simp [extendAuction, h1],
          fun h1 h2 => by
            unfold extendAuction
            rw [if_neg (by simp [h1]), if_pos (by omega)],
          fun h1 h2 => by
            unfold extendAuction
            rw [if_neg (by simp [h1]), if_neg (by omega)],
          fun s' h => ?_⟩
  unfold extendAuction at h
  split_ifs at h with h1 h2
  injection h with h
  subst h
  simp

/-- Witness for C10: extending the active demo auction by 30 minutes
moves its end from 1000 to 1000 + 30 * 60000. -/
theorem extendAuction_spec_witness :
    extendAuction demoStore 30 50 = Except.ok
      { demoStore with auction := { demoStore.auction with
          auctionEnd := demoStore.auction.auctionEnd + 30 * 60000,
          updatedAt := 50 } } :=
  (extendAuction_spec demoStore 30 50).2.2.1 rfl (by decide)

/-- Marking a row winning does not change its amount. -/
lemma markWinning_fun_amount (b : BidRow) (i : ℕ) :
    ((if b.id = i then { b with isWinning := true } else b) : BidRow).amount
      = b.amount := by
  split_ifs <;> rfl

/-- Marking a row winning does not change its id. -/
lemma markWinning_fun_id (b : BidRow) (i : ℕ) :
    ((if b.id = i then { b with isWinning := true } else b) : BidRow).id = b.id := by
  split_ifs <;> rfl

/-- Marking a row winning does not change its bidder. -/
lemma markWinning_fun_bidderId (b : BidRow) (i : ℕ) :
    ((if b.id = i then { b with isWinning := true } else b) : BidRow).bidderId
      = b.bidderId := by
  split_ifs <;> rfl

/-- The invariant holds at every reachable store. -/
lemma reachable_inv {s : Store} (h : Reachable s) : Inv s := by
  induction h with
  | create sp hsp auctionEnd sellerId rp now =>
    refine ⟨hsp, rfl, le_refl _, fun _ => rfl, ?_, ?_⟩ <;> simp [createStore]
  | bid bidId bidderId amount now hs ih =>
    rename_i s
    cases hv : validateBid s.auction bidderId amount now with
    | some e => simpa [placeBidOk, placeBid, hv] using ih
    | none =>
      obtain ⟨hst, hend, hsell, hgt, hmin⟩ := validateBid_none_inv hv
      rw [effectiveCurrentBid_of_inv ih] at hgt
      obtain ⟨hsp, hcount, hle, hnil, hall, hmax⟩ := ih
      simp only [placeBidOk, placeBid, hv]
      refine ⟨hsp, ?_, ?_, ?_, ?_, ?_⟩
      · simp [hcount]
      · exact le_of_lt (lt_of_le_of_lt hle hgt)
      · simp
      · intro b hb
        rcases List.mem_append.mp hb with hb | hb
        · exact ⟨le_of_lt (lt_of_le_of_lt (hall b hb).1 hgt), (hall b hb).2⟩
        · rcases List.mem_singleton.mp hb with rfl
          exact ⟨le_refl _, lt_of_le_of_lt (le_trans hsp hle) hgt⟩
      · intro
        exact ⟨{ id := bidId, bidderId := bidderId, amount := amount,
                 currency := "USD", bidTime := now, isWinning := false },
               by simp, rfl⟩
  | close now hs ih =>
    rename_i s
    obtain ⟨hsp, hcount, hle, hnil, hall, hmax⟩ := ih
    cases hhb : highestBid s.bids with
    | none =>
      simp only [endAuction, hhb]
      exact ⟨hsp, hcount, hle, hnil, hall, hmax⟩
    | some hb =>
      simp only [endAuction, hhb]
      refine ⟨hsp, ?_, hle, ?_, ?_, ?_⟩
      · simpa [markWinning] using hcount
      · intro hmw
        exact hnil (by simpa [markWinning] using hmw)
      · intro b hb'
        obtain ⟨b0, hb0, rfl⟩ := List.mem_map.mp hb'
        rw [markWinning_fun_amount]
        exact hall b0 hb0
      · intro hne
        have hne0 : s.bids ≠ [] := fun h0 => hne (by simp [markWinning, h0])
        obtain ⟨b0, hb0, hb0eq⟩ := hmax hne0
        refine ⟨if b0.id = hb.id then { b0 with isWinning := true } else b0,
                List.mem_map.mpr ⟨b0, hb0, rfl⟩, ?_⟩
        rw [markWinning_fun_amount]
        exact hb0eq
  | extend additionalMinutes now hs heq ih =>
    rename_i s s'
    unfold extendAuction at heq
    split_ifs at heq
    injection heq with heq
    subst heq
    exact ih
  | cancel now hs heq ih =>
    rename_i s s'
    unfold cancelAuction at heq
    split_ifs at heq
    injection heq with heq
    subst heq
    exact ih

/-- Claim C4 (amended): at every store state reachable from an auction
created with a nonnegative starting price, the current bid dominates the
starting price; it is the amount of some stored bid and an upper bound
of all of them when bids exist, and equals the starting price when none
exist; and a zero bid count forces currentBid = startingPrice.  The
restriction to nonnegative starting prices is necessary: nothing in the
code enforces it, and the accompanying counterexample shows the
invariant failing beneath it. -/
theorem reachable_currentBid_invariant {s : Store} (h : Reachable s) :
    s.auction.startingPrice ≤ s.auction.currentBid ∧
    (s.bids = [] → s.auction.currentBid = s.auction.startingPrice) ∧
    (s.bids ≠ [] →
      (∃ b ∈ s.bids, b.amount = s.auction.currentBid) ∧
      ∀ b ∈ s.bids, b.amount ≤ s.auction.currentBid) ∧
    (s.auction.bidCount = 0 → s.auction.currentBid = s.auction.startingPrice) := by
  obtain ⟨hsp, hcount, hle, hnil, hall, hmax⟩ := reachable_inv h
  refine ⟨hle, hnil, fun hne => ⟨hmax hne, fun b hb => (hall b hb).1⟩, fun h0 => ?_⟩
  exact hnil (List.length_eq_zero.mp (by rw [← hcount, h0]))

/-- Witness for C4: the demo auction after one accepted $105 bid. -/
theorem reachable_currentBid_invariant_witness :
    ((placeBidOk demoStore 1 1 105 10).1.auction.startingPrice
      ≤ (placeBidOk demoStore 1 1 105 10).1.auction.currentBid) ∧
    ((placeBidOk demoStore 1 1 105 10).1.bids = [] →
      (placeBidOk demoStore 1 1 105 10).1.auction.currentBid
        = (placeBidOk demoStore 1 1 105 10).1.auction.startingPrice) ∧
    ((placeBidOk demoStore 1 1 105 10).1.bids ≠ [] →
      (∃ b ∈ (placeBidOk demoStore 1 1 105 10).1.bids,
        b.amount = (placeBidOk demoStore 1 1 105 10).1.auction.currentBid) ∧
      ∀ b ∈ (placeBidOk demoStore 1 1 105 10).1.bids,
        b.amount ≤ (placeBidOk demoStore 1 1 105 10).1.auction.currentBid) ∧
    ((placeBidOk demoStore 1 1 105 10).1.auction.bidCount = 0 →
      (placeBidOk demoStore 1 1 105 10).1.auction.currentBid
        = (placeBidOk demoStore 1 1 105 10).1.auction.startingPrice) :=
  reachable_currentBid_invariant
    (Reachable.bid 1 1 105 10 (Reachable.create 100 (by norm_num) 1000 0 none 0))

/-- An auction created with starting price -10 (which no validation in
the code rules out), after an accepted bid of 0 by bidder 1 and an
accepted bid of -5 by bidder 2. -/
def negPriceStore : Store :=
  (placeBidOk (placeBidOk (createStore (-10) 1000 0 none 0) 1 1 0 10).1
    2 2 (-5) 11).1

/-- Claim C4 counterexample: with a negative starting price the
invariant fails on the code.  The bid of 0 is accepted against
currentBid -10; the stored current_bid 0 then re-triggers the JS falsy
fallback current_bid || starting_price, so validation measures the next
bid against -10 again and accepts -5.  The final currentBid is -5 while
an accepted bid of amount 0 is stored, so currentBid is not the maximum
accepted bid amount as the claim asserts of every auction. -/
theorem negative_price_invariant_counterexample :
    (placeBidOk (createStore (-10) 1000 0 none 0) 1 1 0 10).2
      = Except.ok { id := 1, bidderId := 1, amount := 0, currency := "USD",
                    bidTime := 10, isWinning := false } ∧
    (placeBidOk (placeBidOk (createStore (-10) 1000 0 none 0) 1 1 0 10).1
        2 2 (-5) 11).2
      = Except.ok { id := 2, bidderId := 2, amount := -5, currency := "USD",
                    bidTime := 11, isWinning := false } ∧
    negPriceStore.bids.map BidRow.amount = [0, -5] ∧
    negPriceStore.auction.currentBid = -5 ∧
    ∃ b ∈ negPriceStore.bids, negPriceStore.auction.currentBid < b.amount := by
  refine ⟨?_, ?_, ?_, ?_, ?_⟩ <;>
    norm_num [negPriceStore, placeBidOk, placeBid, validateBid,
      effectiveCurrentBid, minIncrement, createStore]

/-- highestBid commutes with any row transformation that preserves
amounts (the selection only compares amounts and the fold is
positional). -/
lemma highestBid_map (f : BidRow → BidRow) (hf : ∀ b, (f b).amount = b.amount) :
    ∀ l : List BidRow, highestBid (l.map f) = (highestBid l).map f := by
  intro l
  induction l with
  | nil => rfl
  | cons b rest ih =>
    have hL : highestBid (List.map f (b :: rest)) =
        match highestBid (rest.map f) with
        | none => some (f b)
        | some m => if (f b).amount < m.amount then some m else some (f b) := rfl
    have hR : highestBid (b :: rest) =
        match highestBid rest with
        | none => some b
        | some m => if b.amount < m.amount then some m else some b := rfl
    rw [hL, hR, ih]
    cases hr : highestBid rest with
    | none => rfl
    | some m =>
      show (if (f b).amount < (f m).amount then some (f m) else some (f b))
          = Option.map f (if b.amount < m.amount then some m else some b)
      rw [hf b, hf m, apply_ite (Option.map f)]
      rfl

/-- A nonempty bids table always yields a highest bid. -/
lemma highestBid_ne_none (x : BidRow) (xs : List BidRow) :
    highestBid (x :: xs) ≠ none := by
  show (match highestBid xs with
        | none => some x
        | some m => if x.amount < m.amount then some m else some x) ≠ none
  cases highestBid xs with
  | none => simp
  | some m =>
    show (if x.amount < m.amount then some m else some x) ≠ none
    split_ifs <;> simp

/-- Marking the same row winning twice is the same as marking it once. -/
lemma markWinning_idem (l : List BidRow) (i : ℕ) :
    markWinning (markWinning l i) i = markWinning l i := by
  unfold markWinning
  rw [List.map_map]
  apply List.map_congr_left
  intro b _
  by_cases hb : b.id = i <;> simp [hb]

/-- If no row has the target id and none is winning, marking produces no
winning row. -/
lemma countP_markWinning_of_not_mem (l : List BidRow) (i : ℕ)
    (hw : ∀ b ∈ l, b.isWinning = false) (hni : i ∉ l.map BidRow.id) :
    List.countP (fun b => b.isWinning) (markWinning l i) = 0 := by
  induction l with
  | nil => rfl
  | cons b rest ih =>
    have hbi : b.id ≠ i := fun h => hni (by simp [h])
    have hbw : b.isWinning = false := hw b (by simp)
    have ihr : List.countP (fun b => b.isWinning) (markWinning rest i) = 0 :=
      ih (fun x hx => hw x (List.mem_cons_of_mem b hx))
        (fun h => hni (List.mem_cons_of_mem _ h))
    show List.countP (fun b => b.isWinning)
        ((if b.id = i then { b with isWinning := true } else b)
          :: markWinning rest i) = 0
    rw [if_neg hbi]
    simp [List.countP_cons, ihr, hbw]

/-- With pairwise distinct ids and no pre-existing winning flag, marking
one id winning yields at most one winning row. -/
lemma countP_markWinning_le_one (l : List BidRow) (i : ℕ)
    (hw : ∀ b ∈ l, b.isWinning = false) (hnd : (l.map BidRow.id).Nodup) :
    List.countP (fun b => b.isWinning) (markWinning l i) ≤ 1 := by
  induction l with
  | nil => simp [markWinning]
  | cons b rest ih =>
    have hbw : b.isWinning = false := hw b (by simp)
    have hndr : (rest.map BidRow.id).Nodup := (List.nodup_cons.mp hnd).2
    have hwr : ∀ x ∈ rest, x.isWinning = false :=
      fun x hx => hw x (List.mem_cons_of_mem b hx)
    by_cases hbi : b.id = i
    · have hni : i ∉ rest.map BidRow.id :=
        fun h => (List.nodup_cons.mp hnd).1 (by rwa [hbi])
      have h0 : List.countP (fun b => b.isWinning) (markWinning rest i) = 0 :=
        countP_markWinning_of_not_mem rest i hwr hni
      show List.countP (fun b => b.isWinning)
          ((if b.id = i then { b with isWinning := true } else b)
            :: markWinning rest i) ≤ 1
      rw [if_pos hbi]
      simp [List.countP_cons, h0]
    · have h1 := ih hwr hndr
      show List.countP (fun b => b.isWinning)
          ((if b.id = i then { b with isWinning := true } else b)
            :: markWinning rest i) ≤ 1
      rw [if_neg hbi]
      simpa [List.countP_cons, hbw] using h1

/-- Claim C6 (amended): ending an auction a second time re-issues the
same writes, leaving every field unchanged except updated_at (set to the
second call's time); the final states of one and two calls agree up to
updated_at, and with distinct bid ids and no pre-existing winning flag at
most one bid ever carries isWinning = true. -/
theorem endAuction_idempotent_mod_updatedAt (s : Store) (now1 now2 : ℤ) :
    endAuction (endAuction s now1) now2 =
      { endAuction s now1 with auction :=
          { (endAuction s now1).auction with updatedAt := now2 } } ∧
    ((∀ b ∈ s.bids, b.isWinning = false) → (s.bids.map BidRow.id).Nodup →
      List.countP (fun b => b.isWinning)
        (endAuction (endAuction s now1) now2).bids ≤ 1) := by
  cases hhb : highestBid s.bids with
  | none =>
    have hnil : s.bids = [] := by
      cases hb : s.bids with
      | nil => rfl
      | cons x xs => exact absurd (hb ▸ hhb) (highestBid_ne_none x xs)
    constructor
    · simp [endAuction, hhb, hnil, highestBid]
    · intro _ _
      simp [endAuction, hhb, hnil, highestBid]
  | some hb =>
    have hmap : highestBid (markWinning s.bids hb.id)
        = some (if hb.id = hb.id then { hb with isWinning := true } else hb) := by
      unfold markWinning
      rw [highestBid_map _ (fun b => markWinning_fun_amount b hb.id) s.bids, hhb]
      rfl
    have hmap' : highestBid (markWinning s.bids hb.id)
        = some { hb with isWinning := true } := by
      rw [hmap, if_pos rfl]
    constructor
    · simp only [endAuction, hhb, hmap']
      rw [markWinning_idem]
    · intro hw hnd
      simp only [endAuction, hhb, hmap']
      rw [markWinning_idem]
      exact countP_markWinning_le_one s.bids hb.id hw hnd

/-- A reachable demo auction with two bids of distinct ids. -/
def twoBidStore : Store :=
  (placeBidOk (placeBidOk demoStore 1 1 105 10).1 2 2 115 11).1

/-- Witness for C6 at the two-bid demo store, with both side conditions
discharged by evaluation. -/
theorem endAuction_idempotent_mod_updatedAt_witness :
    endAuction (endAuction twoBidStore 20) 30 =
      { endAuction twoBidStore 20 with auction :=
          { (endAuction twoBidStore 20).auction with updatedAt := 30 } } ∧
    List.countP (fun b => b.isWinning)
        (endAuction (endAuction twoBidStore 20) 30).bids ≤ 1 :=
  ⟨(endAuction_idempotent_mod_updatedAt twoBidStore 20 30).1,
   (endAuction_idempotent_mod_updatedAt twoBidStore 20 30).2
     (by norm_num [twoBidStore, placeBidOk, placeBid, validateBid,
       effectiveCurrentBid, minIncrement, demoStore, createStore])
     (by norm_num [twoBidStore, placeBidOk, placeBid, validateBid,
       effectiveCurrentBid, minIncrement, demoStore, createStore])⟩

/-- Claim C6 counterexample: the final state after two closeAuction
calls is not equal to the state after one — the second call re-mutates
the row, bumping updated_at. -/
theorem endAuction_remutates_counterexample :
    (endAuction (endAuction twoBidStore 20) 30).auction.updatedAt = 30 ∧
    (endAuction twoBidStore 20).auction.updatedAt = 20 ∧
    endAuction (endAuction twoBidStore 20) 30 ≠ endAuction twoBidStore 20 := by
  have h30 : (endAuction (endAuction twoBidStore 20) 30).auction.updatedAt = 30 := by
    norm_num [endAuction, twoBidStore, placeBidOk, placeBid, validateBid,
      effectiveCurrentBid, minIncrement, demoStore, createStore, highestBid,
      markWinning]
  have h20 : (endAuction twoBidStore 20).auction.updatedAt = 20 := by
    norm_num [endAuction, twoBidStore, placeBidOk, placeBid, validateBid,
      effectiveCurrentBid, minIncrement, demoStore, createStore, highestBid,
      markWinning]
  refine ⟨h30, h20, fun h => ?_⟩
  rw [h, h20] at h30
  exact absurd h30 (by decide)

/-- Claim C7 (amended): an active auction past its end time with zero
bids is transitioned by the sweep to status ended with its
winning_bidder_id left unset and no bid marked winning — not to
cancelled, and not to ended with a phantom winner. -/
theorem sweep_zero_bid_ended_no_winner (aid : ℕ) (s : Store) (now : ℤ)
    (h1 : s.auction.status = Status.active) (h2 : s.auction.auctionEnd < now)
    (h3 : s.bids = []) (h4 : s.auction.winningBidderId = none) :
    checkAndEndExpiredAuctions [(aid, s)] now =
      [(aid, { s with auction :=
        { s.auction with status := Status.ended, updatedAt := now } })] ∧
    (∀ p ∈ checkAndEndExpiredAuctions [(aid, s)] now,
      p.2.auction.winningBidderId = none ∧ p.2.bids = []) := by
  have hend : endAuction s now =
      { s with auction :=
        { s.auction with status := Status.ended, updatedAt := now } } := by
    have hhb : highestBid s.bids = none := by rw [h3]; rfl
    simp [endAuction, hhb]
  have hsweep : checkAndEndExpiredAuctions [(aid, s)] now =
      [(aid, { s with auction :=
        { s.auction with status := Status.ended, updatedAt := now } })] := by
    simp [checkAndEndExpiredAuctions, h1, h2, hend]
  refine ⟨hsweep, ?_⟩
  rw [hsweep]
  intro p hp
  rcases List.mem_singleton.mp hp with rfl
  exact ⟨h4, h3⟩

/-- Witness for C7: sweeping the zero-bid demo auction at time 2000. -/
theorem sweep_zero_bid_ended_no_winner_witness :
    checkAndEndExpiredAuctions [(0, demoStore)] 2000 =
      [(0, { demoStore with auction :=
        { demoStore.auction with status := Status.ended, updatedAt := 2000 } })] ∧
    (∀ p ∈ checkAndEndExpiredAuctions [(0, demoStore)] 2000,
      p.2.auction.winningBidderId = none ∧ p.2.bids = []) :=
  sweep_zero_bid_ended_no_winner 0 demoStore 2000 rfl (by decide) rfl rfl

/-- Claim C7 counterexample: after the sweep, the expired zero-bid demo
auction has status ended, which is not the cancelled status the claim
requires. -/
theorem sweep_zero_bid_counterexample :
    (checkAndEndExpiredAuctions [(0, demoStore)] 2000).map
        (fun p => p.2.auction.status) = [Status.ended] ∧
    Status.ended ≠ Status.cancelled := by
  constructor
  · norm_num [checkAndEndExpiredAuctions, endAuction, highestBid, demoStore,
      createStore]
  · decide

/-- A reachable auction with reserve price $200 and a single accepted
$150 bid by bidder 2. -/
def reserveStore : Store :=
  (placeBidOk (createStore 100 1000 0 (some 200) 0) 1 2 150 10).1

/-- Claim C5 (code bug): the reserve price is never consulted at close.
On an auction whose reserve price 200 exceeds every bid amount, ending
the auction nevertheless sets a winning bidder and marks the highest bid
winning, where the claim (and spec section 4.2) requires ended with no
winner. -/
theorem endAuction_ignores_reservePrice :
    reserveStore.auction.reservePrice = some 200 ∧
    (∀ b ∈ reserveStore.bids, b.amount < 200) ∧
    (endAuction reserveStore 20).auction.status = Status.ended ∧
    (endAuction reserveStore 20).auction.winningBidderId = some 2 ∧
    ∃ b ∈ (endAuction reserveStore 20).bids, b.isWinning = true := by
  refine ⟨?_, ?_, ?_, ?_, ?_⟩ <;>
    norm_num [reserveStore, placeBidOk, placeBid, validateBid,
      effectiveCurrentBid, minIncrement, createStore, endAuction, highestBid,
      markWinning]

/-- The two concurrent placeBid invocations of the race scenario: bidder
1 offers $110 and bidder 2 offers $115 against the demo auction. -/
def raceStart : Config2 :=
  { store := demoStore,
    tA := { phase := ThreadPhase.toRead, bidId := 1, bidderId := 1,
            amount := 110, now := 10, snap := none },
    tB := { phase := ThreadPhase.toRead, bidId := 2, bidderId := 2,
            amount := 115, now := 10, snap := none } }

/-- The interleaving in which both invocations read before either
writes: A reads, B reads, A inserts and updates, B inserts and updates. -/
def raceSchedule : List Bool := [true, false, true, true, false, false]

/-- Claim C1 (code bug): placeBid performs an unguarded read-then-write,
so under this interleaving both bids complete successfully against the
same observed snapshot (currentBid 100), both bid rows are persisted,
yet the auction ends with bid_count 1 — an accepted bid is lost from the
totals, and two bids were accepted against one stale currentBid. -/
theorem placeBid_race_lost_update :
    (runSched raceStart raceSchedule).tA.phase = ThreadPhase.doneOk ∧
    (runSched raceStart raceSchedule).tB.phase = ThreadPhase.doneOk ∧
    (runSched raceStart raceSchedule).tA.snap = some demoStore.auction ∧
    (runSched raceStart raceSchedule).tB.snap = some demoStore.auction ∧
    demoStore.auction.currentBid = 100 ∧
    (runSched raceStart raceSchedule).store.bids.length = 2 ∧
    (runSched raceStart raceSchedule).store.auction.bidCount = 1 := by
  refine ⟨?_, ?_, ?_, ?_, ?_, ?_, ?_⟩ <;>
    norm_num [runSched, raceStart, raceSchedule, stepConfig, stepThread,
      validateBid, effectiveCurrentBid, minIncrement, demoStore, createStore]

/-- Claim C2 (code bug): when the bids-table insert fails, placeBid
logs a warning and continues, still incrementing bid_count and setting
current_bid before failing out of the return-value construction — the
call returns an error, no bid row is persisted, and yet the auction
totals were mutated, so the totals disagree with the set of persisted
bids. -/
theorem placeBid_insert_fault_inconsistent :
    (placeBid demoStore 1 1 110 "USD" 10 ⟨true, false⟩).2
      = Except.error BidError.insertNullBid ∧
    (placeBid demoStore 1 1 110 "USD" 10 ⟨true, false⟩).1.bids = [] ∧
    (placeBid demoStore 1 1 110 "USD" 10 ⟨true, false⟩).1.auction.bidCount = 1 ∧
    (placeBid demoStore 1 1 110 "USD" 10 ⟨true, false⟩).1.auction.currentBid
      = 110 := by
  refine ⟨?_, ?_, ?_, ?_⟩ <;>
    norm_num [placeBid, validateBid, effectiveCurrentBid, minIncrement,
      demoStore, createStore]

end ZimMarkets
